import Mathlib

/-
Verification of the svc worker supervisor (package svc).

The development shallowly embeds the lifecycle engine of the supervisor:
worker registration (AddWorker / AddWorkerWithInitRetry), the two-phase
startup of Run (sequential init, concurrent run with panic containment),
the terminal-event race, and the bounded graceful termination protocol
(terminateWorkers / waitGroupTimeout), together with the health handlers
registered by WithHealthz.

Conventions of the embedding:
- Go error values are the inductive GoErr; a nil error is the absence of a
  GoErr (Option GoErr).  fmt.Errorf with a %w verb is GoErr.wrap, which
  errors.Is unwraps; fmt.Errorf with only %s / %v verbs is GoErr.str.
- Durations are natural numbers of abstract time units; a Terminate call
  that blocks forever has duration ⊤ in ℕ∞.
- Logging is an external collaborator.  Log emission is kept out of the
  lifecycle functions except where it changes control flow: a zerolog
  Fatal event exits the process (os.Exit(1) inside Msg), which the run
  model records as processExited.  The separate logger-plumbing model
  (SVCState.logger, addWorkerLogCalls) tracks only whether the logger
  field is nil when a log call dereferences it.
- Go map iteration order is unspecified; maps are embedded as association
  lists and iterated in list order.  No theorem below depends on the
  iteration order of a map, only on its contents.
-/

namespace Svc

/-- Go error values, as far as the supervisor inspects them: context.Canceled,
a plain formatted error (fmt.Errorf with %s or %v), and a wrapping error
(fmt.Errorf with %w) whose message is the wrap text followed by the message
of the wrapped error. -/
inductive GoErr where
  | canceled : GoErr
  | str : String → GoErr
  | wrap : String → GoErr → GoErr
deriving DecidableEq, Repr

/-- Error() string of a GoErr. context.Canceled renders as in the Go standard
library. -/
def GoErr.message : GoErr → String
  | .canceled => "context canceled"
  | .str s => s
  | .wrap t e => t ++ e.message

/-- errors.Is(e, context.Canceled): true for context.Canceled itself and for
any chain of %w wraps around it. -/
def GoErr.isCanceled : GoErr → Bool
  | .canceled => true
  | .str _ => false
  | .wrap _ e => e.isCanceled

/-- Value recovered from a Go panic: either an error value or some other
value, carried as its fmt %v rendering. -/
inductive PanicVal where
  | err : GoErr → PanicVal
  | other : String → PanicVal
deriving DecidableEq, Repr

/-- Character-list helper: nd is a prefix of the second list. -/
def isPrefixChars : List Char → List Char → Bool
  | [], _ => true
  | _ :: _, [] => false
  | a :: as, b :: bs => a == b && isPrefixChars as bs

/-- Character-list helper: nd occurs as a contiguous infix of hay. -/
def isInfixChars (nd : List Char) : List Char → Bool
  | [] => isPrefixChars nd []
  | b :: bs => isPrefixChars nd (b :: bs) || isInfixChars nd bs

/-- Whether the rendered message of an error mentions the given name as a
substring.  Used to make precise what it means for an error value to carry a
worker name. -/
def GoErr.mentions (e : GoErr) (name : String) : Bool :=
  isInfixChars name.toList e.message.toList

/-- Behaviour of a single call to a worker Run method: it either returns
(nil or a non-nil error) or panics. -/
inductive RunBehavior where
  | ret : Option GoErr → RunBehavior
  | panics : PanicVal → RunBehavior

/-- A registered worker, reduced to the observable behaviour of its
capability methods.  init takes the attempt index so that a retry policy can
observe different outcomes per attempt; a plain AddWorker worker is only ever
asked for attempt 0.  alive and healthy are none when the worker does not
implement the Aliver and Healther interfaces respectively; some r means the
interface is implemented and a call returns r.  terminateDuration is how long
a Terminate call blocks before returning (⊤ = forever). -/
structure Worker where
  init : Nat → Option GoErr
  run : RunBehavior
  terminateErr : Option GoErr
  terminateDuration : ℕ∞
  alive : Option (Option GoErr)
  healthy : Option (Option GoErr)

/-- Outcome of one worker goroutine: it either completes, having sent the
given errors on the shared error channel in order, or it crashes the process
with an unrecovered panic. -/
inductive GoroutineOutcome where
  | completed : List GoErr → GoroutineOutcome
  | crashed : PanicVal → GoroutineOutcome
deriving DecidableEq, Repr

/-- Body of the goroutine Run launches per worker, before the deferred
recoverWait runs: a nil return sends nothing, a non-nil return is wrapped as
fmt.Errorf("worker %s exited: %w", name, err) and sent, and a panic inside
the Run call escapes the body (no send has happened). -/
def runBodyOutcome (name : String) (w : Worker) : GoroutineOutcome :=
  match w.run with
  | .ret none => .completed []
  | .ret (some e) => .completed [GoErr.wrap ("worker " ++ name ++ " exited: ") e]
  | .panics r => .crashed r

/-- Error value recoverWait forwards for a recovered panic payload: the
payload itself when it is an error, otherwise fmt.Errorf("%v", r). -/
def recoverForward : PanicVal → GoErr
  | .err e => e
  | .other v => GoErr.str v

/-- Deferred recoverWait boundary: wg.Done always runs, and a panic escaping
the body is recovered and converted into one error sent on the channel. -/
def recoverWait (out : GoroutineOutcome) : GoroutineOutcome :=
  match out with
  | .completed sends => .completed sends
  | .crashed r => .completed [recoverForward r]

/-- Complete behaviour of the per-worker goroutine: the body wrapped in the
deferred recoverWait. -/
def workerUnit (name : String) (w : Worker) : GoroutineOutcome :=
  recoverWait (runBodyOutcome name w)

/-- Supervisor state, mirroring the SVC struct.  The Router is reduced to the
list of registered route patterns, the logger to whether the field is nil
(none) or holds a logger value; zapOpts, stdLogger, atom, loggerRedirectUndo
and the signal channel are observability and OS plumbing with no bearing on
the claims and are omitted.  workersInitialized is not a field here: Run
computes it and hands it to the termination model directly, which matches the
single Run invocation a supervisor instance supports. -/
structure SVCState where
  name : String
  version : String
  router : List String
  terminationGracePeriod : Nat
  terminationWaitPeriod : Nat
  logger : Option Unit
  workers : List (String × Worker)
  workerInitRetryOpts : List (String × Nat)
  workersAdded : List String

/-- Duration constant: one second of abstract time units, so that the
default grace period reads as in the source. -/
def second : Nat := 1000000000

/-- Default termination grace period (15 * time.Second). -/
def defaultTerminationGracePeriod : Nat := 15 * second

/-- Default termination wait period (0 * time.Second). -/
def defaultTerminationWaitPeriod : Nat := 0

/-- Routes registered by WithPProfHandlers. -/
def pprofRoutes : List String :=
  ["/debug/pprof/", "/debug/pprof/cmdline", "/debug/pprof/profile",
   "/debug/pprof/symbol", "/debug/pprof/trace", "/debug/pprof/allocs",
   "/debug/pprof/block", "/debug/pprof/goroutine", "/debug/pprof/heap",
   "/debug/pprof/mutex", "/debug/pprof/threadcreate"]

/-- Options available in the source (options.go).  Every one of them returns
a nil error in the source, so option application is total here. -/
inductive SvcOpt where
  | withTerminationWaitPeriod : Nat → SvcOpt
  | withTerminationGracePeriod : Nat → SvcOpt
  | withRouter : List String → SvcOpt
  | withPProfHandlers : SvcOpt
  | withHealthz : SvcOpt

/-- Application of one option to the state under construction. -/
def applyOpt (s : SVCState) : SvcOpt → SVCState
  | .withTerminationWaitPeriod d => { s with terminationWaitPeriod := d }
  | .withTerminationGracePeriod d => { s with terminationGracePeriod := d }
  | .withRouter r => { s with router := r }
  | .withPProfHandlers => { s with router := s.router ++ pprofRoutes }
  | .withHealthz => { s with router := s.router ++ ["/live", "/ready"] }

/-- New: builds the struct literal of the constructor and applies the
options in order.  The struct literal does not mention the logger field, so
it gets the Go zero value nil (none); no option in the source assigns it
either. -/
def new (name version : String) (opts : List SvcOpt) : SVCState :=
  opts.foldl applyOpt
    { name := name
      version := version
      router := []
      terminationGracePeriod := defaultTerminationGracePeriod
      terminationWaitPeriod := defaultTerminationWaitPeriod
      logger := none
      workers := []
      workerInitRetryOpts := []
      workersAdded := [] }

/-- Logger accessor of the service (the Logger method). -/
def SVCState.loggerFn (s : SVCState) : Option Unit :=
  s.logger

/-- Configured zerolog logger built by the newLogger helper in logger.go.
The helper always produces a non-nil logger; the development models only its
non-nilness.  No function in the source invokes it. -/
def newLogger (_name : String) : Option Unit :=
  some ()

/-- Outcome of one structured log call: either the event is emitted, or the
call dereferences a nil logger pointer (the zerolog methods have value
receivers, so a call through a nil pointer dereferences it). -/
inductive LogOutcome where
  | logged : LogOutcome
  | nilDeref : LogOutcome
deriving DecidableEq, Repr

/-- Behaviour of one log call through the logger field. -/
def logCall (lg : Option Unit) : LogOutcome :=
  match lg with
  | some _ => .logged
  | none => .nilDeref

/-- Log calls AddWorker performs, in source order: the Fatal for a duplicate
name (after which nothing further runs), else an Info when the worker lacks
the Healther interface, then an Info when it lacks the Aliver interface. -/
def addWorkerLogCalls (s : SVCState) (name : String) (w : Worker) : List LogOutcome :=
  if (s.workers.lookup name).isSome then
    [logCall s.logger]
  else
    (if w.healthy.isNone then [logCall s.logger] else []) ++
      (if w.alive.isNone then [logCall s.logger] else [])

/-- Result of a registration call: either the updated state, or the
logger.Fatal on a duplicate name, which halts the process at registration
time. -/
inductive AddResult where
  | ok : SVCState → AddResult
  | fatalDup : AddResult

/-- AddWorker: fatal on an existing name, otherwise append the name to the
ordered workersAdded list and record the worker in the mapping.  The
capability Info logs are pure diagnostics, tracked by addWorkerLogCalls. -/
def addWorker (s : SVCState) (name : String) (w : Worker) : AddResult :=
  if (s.workers.lookup name).isSome then
    .fatalDup
  else
    .ok { s with
      workersAdded := s.workersAdded ++ [name]
      workers := s.workers ++ [(name, w)] }

/-- AddWorkerWithInitRetry: AddWorker, then store the retry options for the
name.  A retry policy is reduced to its attempt count. -/
def addWorkerWithInitRetry (s : SVCState) (name : String) (w : Worker)
    (attempts : Nat) : AddResult :=
  match addWorker s name w with
  | .fatalDup => .fatalDup
  | .ok s₁ =>
      .ok { s₁ with workerInitRetryOpts := s₁.workerInitRetryOpts ++ [(name, attempts)] }

/-- One registration request: a name, the worker, and the retry attempt
count when registered through AddWorkerWithInitRetry. -/
structure Reg where
  name : String
  worker : Worker
  retry : Option Nat

/-- Dispatch of one registration to the API entry point it uses. -/
def applyReg (s : SVCState) (r : Reg) : AddResult :=
  match r.retry with
  | none => addWorker s r.name r.worker
  | some a => addWorkerWithInitRetry s r.name r.worker a

/-- Sequence of registrations; none as soon as one is a duplicate (the Fatal
would have halted the process there). -/
def registerAll (s : SVCState) : List Reg → Option SVCState
  | [] => some s
  | r :: rest =>
      match applyReg s r with
      | .fatalDup => none
      | .ok s₁ => registerAll s₁ rest

/-- Cumulative effect of a duplicate-free registration sequence on a state:
names appended to workersAdded in order, pairs appended to the worker
mapping, retry options recorded for the registrations that carry them. -/
def appendRegs (s : SVCState) (regs : List Reg) : SVCState :=
  { s with
    workers := s.workers ++ regs.map (fun r => (r.name, r.worker))
    workersAdded := s.workersAdded ++ regs.map (fun r => r.name)
    workerInitRetryOpts :=
      s.workerInitRetryOpts ++ regs.filterMap (fun r => r.retry.map (fun a => (r.name, a))) }

/-- Supervisor state reached by constructing a service with New (no options)
and registering the given workers in order. -/
def mkState (regs : List Reg) : SVCState :=
  appendRegs (new "svc" "v0" []) regs

/-- Modelled from the spec: the retry policy abstraction of the external
retry-go dependency (excluded as an external collaborator), specified as
retry until success or policy exhaustion, returning nil on the first
successful attempt and the error of the final attempt on exhaustion.  The
policy is reduced to its attempt count; a count of zero or one means a
single attempt. -/
def retryDo : Nat → (Nat → Option GoErr) → Option GoErr
  | 0, f => f 0
  | 1, f => f 0
  | n + 2, f =>
      match f 0 with
      | none => none
      | some _ => retryDo (n + 1) (fun k => f (k + 1))

/-- Result of the init step Run performs for one registration: retry.Do over
the worker init when retry options are attached, a single init call
otherwise. -/
def effInitReg (r : Reg) : Option GoErr :=
  match r.retry with
  | some a => retryDo a r.worker.init
  | none => r.worker.init 0

/-- Initialization loop of Run over the workersAdded names: look the worker
up, run its init (under retry.Do when options are attached), and on failure
return early with the names initialized so far; on success append the name
and continue.  A name absent from the worker mapping cannot occur for
states built by the registration API (the Go code would call Init on a nil
interface and panic); that branch is modelled as aborting. -/
def initLoop (s : SVCState) : List String → List String × Bool
  | [] => ([], false)
  | n :: rest =>
      match s.workers.lookup n with
      | none => ([], true)
      | some w =>
          match (match s.workerInitRetryOpts.lookup n with
                 | some a => retryDo a w.init
                 | none => w.init 0) with
          | some _ => ([], true)
          | none =>
              let r := initLoop s rest
              (n :: r.1, r.2)

/-- Defer stack of the termination goroutine: the loop body pushes one
deferred Terminate call per initialized name, and the deferred calls execute
one after another from the top of the stack when the goroutine body returns.
The resulting list is the order in which the Terminate calls run. -/
def deferStack (names : List String) : List String :=
  names.foldl (fun acc n => n :: acc) []

/-- First terminal condition Run observes in its select: an error from the
shared channel, a signal (an OS signal or the synthetic SIGTERM a Shutdown
call enqueues), or the completion of every worker goroutine. -/
inductive Terminal where
  | workerErr : GoErr → Terminal
  | osSignal : String → Terminal
  | allDone : Terminal

/-- Observable outcome of one Run invocation: the names that completed
initialization, the names whose run step was launched, the sequence of
Terminate calls the shutdown path performed, and whether the process was
exited by a Fatal log event (in which case the deferred shutdown never
ran). -/
structure RunReport where
  initialized : List String
  launched : List String
  terminated : List String
  processExited : Bool
deriving DecidableEq, Repr

/-- Run: initialize workers in added order, aborting to the deferred
shutdown on the first failure; otherwise launch every registered worker and
block on the three-way race.  A non-cancellation error from the channel is
logged through Fatal, whose Msg calls os.Exit(1), so the deferred shutdown
never runs and no Terminate call is made; every other outcome falls through
to the deferred terminateWorkers over the initialized names. -/
def run (s : SVCState) (ev : Terminal) : RunReport :=
  let ini := initLoop s s.workersAdded
  if ini.2 then
    { initialized := ini.1
      launched := []
      terminated := deferStack ini.1
      processExited := false }
  else
    let launched := s.workers.map (fun p => p.1)
    match ev with
    | .workerErr e =>
        if e.isCanceled then
          { initialized := ini.1
            launched := launched
            terminated := deferStack ini.1
            processExited := false }
        else
          { initialized := ini.1
            launched := launched
            terminated := []
            processExited := true }
    | .osSignal _ =>
        { initialized := ini.1
          launched := launched
          terminated := deferStack ini.1
          processExited := false }
    | .allDone =>
        { initialized := ini.1
          launched := launched
          terminated := deferStack ini.1
          processExited := false }

/-
Timing model of terminateWorkers.  The function spawns one goroutine that
sleeps the wait period and then runs the deferred Terminate calls one after
another in deferStack order, and then blocks in waitGroupTimeout on the race
between the completion of that goroutine and a grace-period timer.  Times
are measured from the entry of terminateWorkers; a Terminate call that never
returns contributes ⊤.
-/

/-- Durations of the Terminate calls of the initialized workers, in the
order the deferred calls execute.  A name absent from the worker mapping
cannot occur for states built by the registration API; it is modelled as a
zero-duration call. -/
def terminationDurations (s : SVCState) (inited : List String) : List ℕ∞ :=
  (deferStack inited).map
    (fun n => ((s.workers.lookup n).map Worker.terminateDuration).getD 0)

/-- Time at which the termination goroutine completes: the wait-period sleep
followed by every Terminate call in sequence. -/
def terminateCompletionTime (s : SVCState) (inited : List String) : ℕ∞ :=
  (s.terminationWaitPeriod : ℕ∞) + (terminationDurations s inited).sum

/-- waitGroupTimeout: block on the race between the wait-group channel and
time.After(d); the select returns at whichever time comes first. -/
def waitGroupTimeout (completion : ℕ∞) (d : Nat) : ℕ∞ :=
  min completion (d : ℕ∞)

/-- Time at which terminateWorkers (and with it the shutdown path of Run)
returns to the caller. -/
def terminateReturnTime (s : SVCState) (inited : List String) : ℕ∞ :=
  waitGroupTimeout (terminateCompletionTime s inited) s.terminationGracePeriod

/-- Time at which the Terminate call at position k of the execution order
finishes: the sleep plus the durations of the calls up to and including it.
The timeout in waitGroupTimeout does not appear here: nothing cancels an
outstanding Terminate call. -/
def termFinishTime (s : SVCState) (inited : List String) (k : Nat) : ℕ∞ :=
  (s.terminationWaitPeriod : ℕ∞) + ((terminationDurations s inited).take (k + 1)).sum

/-
Health handlers registered by WithHealthz, over a response-writer model of
net/http: Header().Set mutates the header map, the first WriteHeader fixes
the status code and snapshots the headers actually sent (later mutations of
the map change nothing), Write defaults the status to 200, and the server
sends 200 with an empty body when a handler returns without writing.
-/

/-- Response writer state: the mutable header map, the status code once
written, the headers snapshot taken at the first WriteHeader, and the
accumulated body. -/
structure RespWriter where
  headers : List (String × String)
  status : Option Nat
  sentHeaders : List (String × String)
  body : String
deriving DecidableEq, Repr

/-- Fresh response writer handed to a handler. -/
def RespWriter.empty : RespWriter :=
  { headers := [], status := none, sentHeaders := [], body := "" }

/-- Header().Set(k, v): replace any entry for k in the header map. -/
def RespWriter.setHeader (rw : RespWriter) (k v : String) : RespWriter :=
  { rw with headers := (k, v) :: rw.headers.filter (fun p => p.1 ≠ k) }

/-- WriteHeader(code): a first call fixes the status and snapshots the
header map; further calls change nothing. -/
def RespWriter.writeHeader (rw : RespWriter) (code : Nat) : RespWriter :=
  if rw.status.isSome then rw
  else { rw with status := some code, sentHeaders := rw.headers }

/-- Write(b): an implicit WriteHeader(200) when none has happened, then
append to the body. -/
def RespWriter.write (rw : RespWriter) (b : String) : RespWriter :=
  let rw₁ := rw.writeHeader 200
  { rw₁ with body := rw₁.body ++ b }

/-- Finalization by the HTTP server once the handler returns: a handler
that never wrote gets status 200 with an empty body. -/
def respond (rw : RespWriter) : RespWriter :=
  rw.writeHeader 200

/-- Error collection loop of the live handler: for every worker that
implements Aliver, a non-nil Alive() result is appended as
fmt.Errorf("worker %s: %s", n, err). -/
def liveLoop (ws : List (String × Worker)) (errs : List GoErr) : List GoErr :=
  match ws with
  | [] => errs
  | (n, w) :: rest =>
      match w.alive with
      | some (some e) =>
          liveLoop rest (errs ++ [GoErr.str ("worker " ++ n ++ ": " ++ e.message)])
      | _ => liveLoop rest errs

/-- Per-worker errors of the liveness query. -/
def liveErrs (ws : List (String × Worker)) : List GoErr :=
  liveLoop ws []

/-- Error collection loop of the ready handler: the same shape reading the
Healther interface. -/
def readyLoop (ws : List (String × Worker)) (errs : List GoErr) : List GoErr :=
  match ws with
  | [] => errs
  | (n, w) :: rest =>
      match w.healthy with
      | some (some e) =>
          readyLoop rest (errs ++ [GoErr.str ("worker " ++ n ++ ": " ++ e.message)])
      | _ => readyLoop rest errs

/-- Per-worker errors of the readiness query. -/
def readyErrs (ws : List (String × Worker)) : List GoErr :=
  readyLoop ws []

/-- Body written by the live handler on success. -/
def aliveBody : String :=
  "\x7b\"status\": \"Still Alive!\"\x7d"

/-- Rendering of the error collection into the failure body.  The json
encoding of the errors map is abstracted into a concrete rendering of the
messages; both handlers share it, and no claim depends on its exact text. -/
def marshalErrors (errs : List GoErr) : String :=
  "\x7b\"errors\":[" ++
    String.intercalate "," (errs.map (fun e => "\"" ++ e.message ++ "\"")) ++ "]\x7d"

/-- Response of the live handler for a given error collection, in source
order: on an empty collection set Content-Type and write the alive body; on
a non-empty one set Content-Type, write status 503 and write the marshalled
errors. -/
def liveRespond (errs : List GoErr) : RespWriter :=
  if errs.length = 0 then
    (RespWriter.empty.setHeader "Content-Type" "application/json").write aliveBody
  else
    (((RespWriter.empty.setHeader "Content-Type" "application/json").writeHeader 503).write
      (marshalErrors errs))

/-- Response of the ready handler for a given error collection, in source
order: on a non-empty collection write status 503, then set Content-Type
(after the status was already written), then write the marshalled errors; on
an empty collection the handler body does nothing. -/
def readyRespond (errs : List GoErr) : RespWriter :=
  if errs.length > 0 then
    (((RespWriter.empty.writeHeader 503).setHeader "Content-Type" "application/json").write
      (marshalErrors errs))
  else
    RespWriter.empty

/-- Complete live handler over the registered workers. -/
def liveHandler (ws : List (String × Worker)) : RespWriter :=
  liveRespond (liveErrs ws)

/-- Complete ready handler over the registered workers. -/
def readyHandler (ws : List (String × Worker)) : RespWriter :=
  readyRespond (readyErrs ws)

/-- Worker transformation that presents the Healther capability of a worker
as its Aliver capability, used to state that the readiness query is the
liveness query reading the other interface. -/
def aliveFromHealthy (w : Worker) : Worker :=
  { w with alive := w.healthy }

/-- Reference form of the initialization loop, directly over the
registration records. -/
def initLoopRegs : List Reg → List String × Bool
  | [] => ([], false)
  | r :: rest =>
      match effInitReg r with
      | some _ => ([], true)
      | none =>
          let p := initLoopRegs rest
          (r.name :: p.1, p.2)

/-- Entry a worker contributes to the liveness error collection. -/
def liveEntry (p : String × Worker) : Option GoErr :=
  match p.2.alive with
  | some (some e) => some (GoErr.str ("worker " ++ p.1 ++ ": " ++ e.message))
  | _ => none

/-- Entry a worker contributes to the readiness error collection. -/
def readyEntry (p : String × Worker) : Option GoErr :=
  match p.2.healthy with
  | some (some e) => some (GoErr.str ("worker " ++ p.1 ++ ": " ++ e.message))
  | _ => none

/-- Sample worker: every capability method succeeds, Terminate is
instantaneous, no optional interfaces. -/
def wOk : Worker :=
  { init := fun _ => none
    run := .ret none
    terminateErr := none
    terminateDuration := 0
    alive := none
    healthy := none }

/-- Sample worker whose init fails on every attempt. -/
def wInitFail : Worker :=
  { wOk with init := fun _ => some (GoErr.str "init failed") }

/-- Sample worker whose run step returns a non-cancellation error. -/
def wBoom : Worker :=
  { wOk with run := .ret (some (GoErr.str "boom")) }

/-- Sample worker whose run step returns context.Canceled. -/
def wCancel : Worker :=
  { wOk with run := .ret (some GoErr.canceled) }

/-- Sample worker whose run step panics with an error payload. -/
def wPanicBoom : Worker :=
  { wOk with run := .panics (.err (GoErr.str "boom")) }

/-- Sample worker whose Terminate call never returns. -/
def wHang : Worker :=
  { wOk with terminateDuration := ⊤ }

/-- Sample worker implementing Aliver with a failing Alive. -/
def wAliveErr : Worker :=
  { wOk with alive := some (some (GoErr.str "disk full")) }

section Lemmas

/-- Lookup distributes over list append, preferring the left list. -/
theorem lookup_append {β : Type} (l₁ l₂ : List (String × β)) (a : String) :
    (l₁ ++ l₂).lookup a = (l₁.lookup a).or (l₂.lookup a) := by
  induction l₁ with
  | nil => simp [Option.none_or]
  | cons p t ih =>
      obtain ⟨k, b⟩ := p
      by_cases h : a = k
      · subst h
        simp [List.lookup_cons]
      · have hb : (a == k) = false := by simp [h]
        simp [List.lookup_cons, hb, ih]

/-- Lookup in a singleton association list. -/
theorem lookup_singleton {β : Type} (k a : String) (b : β) :
    ([(k, b)] : List (String × β)).lookup a = if a = k then some b else none := by
  by_cases h : a = k
  · subst h; simp [List.lookup_cons]
  · have hb : (a == k) = false := by simp [h]
    simp [List.lookup_cons, hb, h]

/-- Option application never touches the logger field. -/
theorem applyOpt_logger (s : SVCState) (o : SvcOpt) :
    (applyOpt s o).logger = s.logger := by
  cases o <;> rfl

/-- Option application never touches the worker mapping. -/
theorem applyOpt_workers (s : SVCState) (o : SvcOpt) :
    (applyOpt s o).workers = s.workers := by
  cases o <;> rfl

/-- Folding options preserves the logger field. -/
theorem foldl_applyOpt_logger (opts : List SvcOpt) (s : SVCState) :
    (opts.foldl applyOpt s).logger = s.logger := by
  induction opts generalizing s with
  | nil => rfl
  | cons o rest ih => simp [List.foldl_cons, ih, applyOpt_logger]

/-- Folding options preserves the worker mapping. -/
theorem foldl_applyOpt_workers (opts : List SvcOpt) (s : SVCState) :
    (opts.foldl applyOpt s).workers = s.workers := by
  induction opts generalizing s with
  | nil => rfl
  | cons o rest ih => simp [List.foldl_cons, ih, applyOpt_workers]

/-- New never assigns the logger field. -/
theorem new_logger (n v : String) (opts : List SvcOpt) :
    (new n v opts).logger = none := by
  simp [new, foldl_applyOpt_logger]

/-- New starts with an empty worker mapping. -/
theorem new_workers (n v : String) (opts : List SvcOpt) :
    (new n v opts).workers = [] := by
  simp [new, foldl_applyOpt_workers]

/-- Lookup misses the worker pairs of registrations whose names avoid the
key. -/
theorem lookup_map_regs_not_mem (regs : List Reg) (n : String)
    (hn : n ∉ regs.map Reg.name) :
    (regs.map (fun r => (r.name, r.worker))).lookup n = none := by
  induction regs with
  | nil => rfl
  | cons r rest ih =>
      have hne : n ≠ r.name := by
        intro h
        exact hn (by simp [h])
      have hb : (n == r.name) = false := by simp [hne]
      have hrest : n ∉ rest.map Reg.name := by
        intro h
        exact hn (by simp [h])
      simp [List.lookup_cons, hb, ih hrest]

/-- Lookup misses the retry pairs of registrations whose names avoid the
key. -/
theorem lookup_retry_regs_not_mem (regs : List Reg) (n : String)
    (hn : n ∉ regs.map Reg.name) :
    (regs.filterMap (fun r => r.retry.map (fun a => (r.name, a)))).lookup n = none := by
  induction regs with
  | nil => rfl
  | cons r rest ih =>
      have hne : n ≠ r.name := by
        intro h
        exact hn (by simp [h])
      have hb : (n == r.name) = false := by simp [hne]
      have hrest : n ∉ rest.map Reg.name := by
        intro h
        exact hn (by simp [h])
      cases hra : r.retry with
      | none => simp [List.filterMap_cons, hra, ih hrest]
      | some a => simp [List.filterMap_cons, hra, List.lookup_cons, hb, ih hrest]

/-- Under distinct names, looking a registered name up in the worker pairs
finds its worker. -/
theorem lookup_map_regs (regs : List Reg) (hnd : (regs.map Reg.name).Nodup)
    (r : Reg) (hr : r ∈ regs) :
    (regs.map (fun r => (r.name, r.worker))).lookup r.name = some r.worker := by
  induction regs with
  | nil => cases hr
  | cons a rest ih =>
      rw [List.map_cons, List.nodup_cons] at hnd
      rcases List.mem_cons.mp hr with h | h
      · subst h
        simp [List.lookup_cons]
      · have hne : r.name ≠ a.name := by
          intro he
          exact hnd.1 (he ▸ List.mem_map_of_mem Reg.name h)
        have hb : (r.name == a.name) = false := by simp [hne]
        simp [List.lookup_cons, hb, ih hnd.2 h]

/-- Under distinct names, looking a registered name up in the retry pairs
finds exactly its retry options. -/
theorem lookup_retry_regs (regs : List Reg) (hnd : (regs.map Reg.name).Nodup)
    (r : Reg) (hr : r ∈ regs) :
    (regs.filterMap (fun r => r.retry.map (fun a => (r.name, a)))).lookup r.name = r.retry := by
  induction regs with
  | nil => cases hr
  | cons a rest ih =>
      rw [List.map_cons, List.nodup_cons] at hnd
      rcases List.mem_cons.mp hr with h | h
      · subst h
        cases hra : r.retry with
        | none => simp [List.filterMap_cons, hra, lookup_retry_regs_not_mem rest r.name hnd.1]
        | some x => simp [List.filterMap_cons, hra, List.lookup_cons]
      · have hne : r.name ≠ a.name := by
          intro he
          exact hnd.1 (he ▸ List.mem_map_of_mem Reg.name h)
        have hb : (r.name == a.name) = false := by simp [hne]
        cases hra : a.retry with
        | none => simp [List.filterMap_cons, hra, ih hnd.2 h]
        | some x => simp [List.filterMap_cons, hra, List.lookup_cons, hb, ih hnd.2 h]

/-- Names added by mkState are the registration names in order. -/
theorem mkState_workersAdded (regs : List Reg) :
    (mkState regs).workersAdded = regs.map Reg.name := by
  simp [mkState, appendRegs, new]

/-- Worker mapping of mkState. -/
theorem mkState_workers (regs : List Reg) :
    (mkState regs).workers = regs.map (fun r => (r.name, r.worker)) := by
  simp [mkState, appendRegs, new]

/-- Retry mapping of mkState. -/
theorem mkState_retry (regs : List Reg) :
    (mkState regs).workerInitRetryOpts
      = regs.filterMap (fun r => r.retry.map (fun a => (r.name, a))) := by
  simp [mkState, appendRegs, new]

/-- Grace period of mkState is the constructor default. -/
theorem mkState_grace (regs : List Reg) :
    (mkState regs).terminationGracePeriod = defaultTerminationGracePeriod := rfl

/-- The initialization loop agrees with its reference form whenever the
lookups of every registered name return that registration. -/
theorem initLoop_eq_initLoopRegs (s : SVCState) (regs : List Reg)
    (hlook : ∀ r ∈ regs,
      s.workers.lookup r.name = some r.worker ∧
        s.workerInitRetryOpts.lookup r.name = r.retry) :
    initLoop s (regs.map Reg.name) = initLoopRegs regs := by
  induction regs with
  | nil => rfl
  | cons r rest ih =>
      have hr := hlook r (List.mem_cons_self r rest)
      have hrest : ∀ x ∈ rest, s.workers.lookup x.name = some x.worker ∧
          s.workerInitRetryOpts.lookup x.name = x.retry :=
        fun x hx => hlook x (List.mem_cons_of_mem r hx)
      rw [List.map_cons]
      simp only [initLoop, hr.1, hr.2]
      cases hretry : r.retry with
      | none =>
          cases hinit : r.worker.init 0 with
          | none => simp [initLoopRegs, effInitReg, hretry, hinit, ih hrest]
          | some e => simp [initLoopRegs, effInitReg, hretry, hinit]
      | some a =>
          cases hinit : retryDo a r.worker.init with
          | none => simp [initLoopRegs, effInitReg, hretry, hinit, ih hrest]
          | some e => simp [initLoopRegs, effInitReg, hretry, hinit]

/-- Lookups in a state built by mkState from duplicate-free registrations. -/
theorem mkState_lookups (regs : List Reg) (hnd : (regs.map Reg.name).Nodup) :
    ∀ r ∈ regs,
      (mkState regs).workers.lookup r.name = some r.worker ∧
        (mkState regs).workerInitRetryOpts.lookup r.name = r.retry := by
  intro r hr
  rw [mkState_workers, mkState_retry]
  exact ⟨lookup_map_regs regs hnd r hr, lookup_retry_regs regs hnd r hr⟩

/-- Initialization inside Run over an mkState state follows the reference
loop. -/
theorem initLoop_mkState (regs : List Reg) (hnd : (regs.map Reg.name).Nodup) :
    initLoop (mkState regs) (mkState regs).workersAdded = initLoopRegs regs := by
  rw [mkState_workersAdded]
  exact initLoop_eq_initLoopRegs (mkState regs) regs (mkState_lookups regs hnd)

/-- Names the reference loop initializes: the registrations up to the first
init failure, in order. -/
theorem initLoopRegs_fst (regs : List Reg) :
    (initLoopRegs regs).1
      = (regs.takeWhile (fun r => (effInitReg r).isNone)).map Reg.name := by
  induction regs with
  | nil => rfl
  | cons r rest ih =>
      cases h : effInitReg r with
      | none => simp [initLoopRegs, h, List.takeWhile_cons, ih]
      | some e => simp [initLoopRegs, h, List.takeWhile_cons]

/-- The reference loop aborts exactly when some reachable registration
fails; in particular it aborts whenever any registration fails. -/
theorem initLoopRegs_snd_of_fail (regs : List Reg) (r : Reg) (hr : r ∈ regs)
    (hfail : (effInitReg r).isSome) :
    (initLoopRegs regs).2 = true := by
  induction regs with
  | nil => cases hr
  | cons a rest ih =>
      rcases List.mem_cons.mp hr with h | h
      · subst h
        cases he : effInitReg r with
        | none => rw [he] at hfail; cases hfail
        | some e => simp [initLoopRegs, he]
      · cases he : effInitReg a with
        | none => simp [initLoopRegs, he, ih h]
        | some e => simp [initLoopRegs, he]

/-- The defer stack executes the pushed calls in reverse push order. -/
theorem deferStack_eq_reverse (l : List String) : deferStack l = l.reverse := by
  have haux : ∀ (t : List String) (acc : List String),
      t.foldl (fun acc n => n :: acc) acc = t.reverse ++ acc := by
    intro t
    induction t with
    | nil => intro acc; rfl
    | cons a rest ih =>
        intro acc
        simp [List.foldl_cons, ih, List.reverse_cons, List.append_assoc]
  unfold deferStack
  rw [haux l [], List.append_nil]

/-- Membership in a takeWhile prefix that provably stops at w. -/
theorem mem_takeWhile_append (p : Reg → Bool) (pre post : List Reg) (w : Reg)
    (hw : p w = false) (x : Reg)
    (hx : x ∈ (pre ++ w :: post).takeWhile p) : x ∈ pre := by
  induction pre with
  | nil =>
      rw [List.nil_append, List.takeWhile_cons, hw] at hx
      simp at hx
  | cons a rest ih =>
      rw [List.cons_append, List.takeWhile_cons] at hx
      by_cases ha : p a = true
      · rw [if_pos ha] at hx
        rcases List.mem_cons.mp hx with h | h
        · exact h ▸ List.mem_cons_self a rest
        · exact List.mem_cons_of_mem a (ih h)
      · rw [if_neg ha] at hx
        cases hx

/-- Run reports as initialized exactly what the initialization loop
produced, whichever terminal condition fires. -/
theorem run_initialized (s : SVCState) (ev : Terminal) :
    (run s ev).initialized = (initLoop s s.workersAdded).1 := by
  unfold run
  by_cases h : (initLoop s s.workersAdded).2
  · simp [h]
  · cases ev with
    | workerErr e => by_cases hc : e.isCanceled <;> simp [h, hc]
    | osSignal sg => simp [h]
    | allDone => simp [h]

/-- Report of a Run whose initialization aborted: nothing launched, the
deferred shutdown terminates the initialized names, the process is not
exited. -/
theorem run_aborted (s : SVCState) (ev : Terminal)
    (h : (initLoop s s.workersAdded).2 = true) :
    run s ev =
      { initialized := (initLoop s s.workersAdded).1
        launched := []
        terminated := deferStack (initLoop s s.workersAdded).1
        processExited := false } := by
  unfold run
  simp [h]

/-- Whenever Run does not exit the process, its shutdown path ran the defer
stack over the initialized names. -/
theorem run_terminated_of_not_exited (s : SVCState) (ev : Terminal)
    (h : (run s ev).processExited = false) :
    (run s ev).terminated = deferStack (run s ev).initialized := by
  revert h
  unfold run
  by_cases h2 : (initLoop s s.workersAdded).2
  · simp [h2]
  · cases ev with
    | workerErr e => by_cases hc : e.isCanceled <;> simp [h2, hc]
    | osSignal sg => simp [h2]
    | allDone => simp [h2]

/-- Collection loop of the live handler, with the accumulator made
explicit. -/
theorem liveLoop_acc (ws : List (String × Worker)) (errs : List GoErr) :
    liveLoop ws errs = errs ++ liveLoop ws [] := by
  induction ws generalizing errs with
  | nil => simp [liveLoop]
  | cons p rest ih =>
      obtain ⟨n, w⟩ := p
      cases ha : w.alive with
      | none =>
          simp only [liveLoop, ha]
          exact ih errs
      | some r =>
          cases r with
          | none =>
              simp only [liveLoop, ha]
              exact ih errs
          | some e =>
              simp only [liveLoop, ha]
              rw [ih (errs ++ [GoErr.str ("worker " ++ n ++ ": " ++ e.message)]),
                ih ([] ++ [GoErr.str ("worker " ++ n ++ ": " ++ e.message)])]
              simp [List.append_assoc]

/-- The liveness error collection is the filterMap of the per-worker
entries. -/
theorem liveErrs_eq_filterMap (ws : List (String × Worker)) :
    liveErrs ws = ws.filterMap liveEntry := by
  induction ws with
  | nil => rfl
  | cons p rest ih =>
      obtain ⟨n, w⟩ := p
      cases ha : w.alive with
      | none => simp [liveErrs, liveLoop, ha, List.filterMap_cons, liveEntry, ← ih]
      | some r =>
          cases r with
          | none => simp [liveErrs, liveLoop, ha, List.filterMap_cons, liveEntry, ← ih]
          | some e =>
              simp only [liveErrs, liveLoop, ha, List.filterMap_cons, liveEntry]
              rw [liveLoop_acc]
              simp [← ih, liveErrs]

/-- Collection loop of the ready handler, with the accumulator made
explicit. -/
theorem readyLoop_acc (ws : List (String × Worker)) (errs : List GoErr) :
    readyLoop ws errs = errs ++ readyLoop ws [] := by
  induction ws generalizing errs with
  | nil => simp [readyLoop]
  | cons p rest ih =>
      obtain ⟨n, w⟩ := p
      cases ha : w.healthy with
      | none =>
          simp only [readyLoop, ha]
          exact ih errs
      | some r =>
          cases r with
          | none =>
              simp only [readyLoop, ha]
              exact ih errs
          | some e =>
              simp only [readyLoop, ha]
              rw [ih (errs ++ [GoErr.str ("worker " ++ n ++ ": " ++ e.message)]),
                ih ([] ++ [GoErr.str ("worker " ++ n ++ ": " ++ e.message)])]
              simp [List.append_assoc]

/-- The readiness error collection is the filterMap of the per-worker
entries. -/
theorem readyErrs_eq_filterMap (ws : List (String × Worker)) :
    readyErrs ws = ws.filterMap readyEntry := by
  induction ws with
  | nil => rfl
  | cons p rest ih =>
      obtain ⟨n, w⟩ := p
      cases ha : w.healthy with
      | none => simp [readyErrs, readyLoop, ha, List.filterMap_cons, readyEntry, ← ih]
      | some r =>
          cases r with
          | none => simp [readyErrs, readyLoop, ha, List.filterMap_cons, readyEntry, ← ih]
          | some e =>
              simp only [readyErrs, readyLoop, ha, List.filterMap_cons, readyEntry]
              rw [readyLoop_acc]
              simp [← ih, readyErrs]

/-- A duplicate-free registration sequence over fresh names goes through the
registration API without a Fatal and accumulates exactly appendRegs. -/
theorem registerAll_eq (regs : List Reg) : ∀ (s : SVCState),
    (∀ r ∈ regs, s.workers.lookup r.name = none) →
    (regs.map Reg.name).Nodup →
    registerAll s regs = some (appendRegs s regs) := by
  induction regs with
  | nil =>
      intro s _ _
      simp [registerAll, appendRegs]
  | cons r rest ih =>
      intro s hfresh hnd
      rw [List.map_cons, List.nodup_cons] at hnd
      have hr : s.workers.lookup r.name = none := hfresh r (List.mem_cons_self r rest)
      have hfresh₁ : ∀ x ∈ rest,
          (s.workers ++ [(r.name, r.worker)]).lookup x.name = none := by
        intro x hx
        have hxne : x.name ≠ r.name := by
          intro he
          exact hnd.1 (he ▸ List.mem_map_of_mem Reg.name hx)
        rw [lookup_append, hfresh x (List.mem_cons_of_mem r hx), Option.none_or,
          lookup_singleton, if_neg hxne]
      cases hretry : r.retry with
      | none =>
          simp only [registerAll, applyReg, hretry, addWorker, hr, Option.isSome_none,
            Bool.false_eq_true, if_neg, reduceIte]
          rw [ih _ hfresh₁ hnd.2]
          simp [appendRegs, List.append_assoc, hretry]
      | some a =>
          simp only [registerAll, applyReg, hretry, addWorkerWithInitRetry, addWorker, hr,
            Option.isSome_none, Bool.false_eq_true, if_neg, reduceIte]
          rw [ih _ hfresh₁ hnd.2]
          simp [appendRegs, List.append_assoc, hretry]

end Lemmas

section Claims

/-- Claim C1, divergence of the code from it, evaluated at the failing
input: a single worker w whose run step returns the non-cancellation error
"boom".  The worker goroutine forwards the name-wrapped error; that error is
not a cancellation; and Run on that event exits the process through the
Fatal log call, so the shutdown path never runs: no Terminate call is made
and Run does not return.  On the cancellation counterpart the shutdown path
does run, so the cancellation distinction is behavioural, not cosmetic. -/
theorem C1_noncancel_error_exits_without_shutdown :
    workerUnit "w" wBoom
        = .completed [GoErr.wrap "worker w exited: " (GoErr.str "boom")]
  ∧ (GoErr.wrap "worker w exited: " (GoErr.str "boom")).isCanceled = false
  ∧ run (mkState [(Reg.mk "w" wBoom none)])
        (.workerErr (GoErr.wrap "worker w exited: " (GoErr.str "boom")))
      = { initialized := ["w"], launched := ["w"], terminated := [], processExited := true }
  ∧ run (mkState [(Reg.mk "w" wCancel none)])
        (.workerErr (GoErr.wrap "worker w exited: " GoErr.canceled))
      = { initialized := ["w"], launched := ["w"], terminated := ["w"], processExited := false } := by
  refine ⟨rfl, rfl, ?_, ?_⟩ <;> rfl

/-- Claim C2, counterexample: the worker named alpha panics with the error
"boom"; the value forwarded on the error channel is that error unchanged,
its message does not mention the worker name, and the forwarded value is the
same whatever the worker name is — so the forwarded error value does not
carry the worker name. -/
theorem C2_counterexample :
    workerUnit "alpha" wPanicBoom = .completed [GoErr.str "boom"]
  ∧ (GoErr.str "boom").mentions "alpha" = false
  ∧ workerUnit "beta" wPanicBoom = workerUnit "alpha" wPanicBoom := by
  refine ⟨rfl, ?_, rfl⟩
  rfl

/-- Claim C2 as amended: a panic in a worker run step is caught at the
goroutine boundary and converted into exactly one error value sent on the
shared channel, so the process does not crash; but the forwarded value is
the recovered payload (or its formatting), independent of the worker name —
the name appears only in the accompanying log event, not in the error
value. -/
theorem C2_panic_contained (name : String) (w : Worker) (r : PanicVal)
    (hr : w.run = .panics r) :
    workerUnit name w = .completed [recoverForward r]
  ∧ ∀ name₂ : String, workerUnit name₂ w = workerUnit name w := by
  constructor
  · unfold workerUnit runBodyOutcome
    rw [hr]
    rfl
  · intro name₂
    unfold workerUnit runBodyOutcome
    rw [hr]

/-- Witness for C2_panic_contained at a concrete panicking worker. -/
theorem C2_witness :
    wPanicBoom.run = .panics (.err (GoErr.str "boom"))
  ∧ workerUnit "w1" wPanicBoom = .completed [recoverForward (.err (GoErr.str "boom"))] :=
  ⟨rfl, (C2_panic_contained "w1" wPanicBoom (.err (GoErr.str "boom")) rfl).1⟩

/-- Claim C3: when the init step of registration w fails (after retry
exhaustion when a policy is attached), every initialized name comes from the
registrations strictly before w, no run step is launched at all, the process
is not exited, and the shutdown path terminates exactly the initialized
names. -/
theorem C3_init_failure_aborts_startup (pre post : List Reg) (w : Reg) (ev : Terminal)
    (hnd : ((pre ++ w :: post).map Reg.name).Nodup)
    (hfail : (effInitReg w).isSome = true) :
    (∀ n ∈ (run (mkState (pre ++ w :: post)) ev).initialized, n ∈ pre.map Reg.name)
  ∧ (run (mkState (pre ++ w :: post)) ev).launched = []
  ∧ (run (mkState (pre ++ w :: post)) ev).processExited = false
  ∧ (run (mkState (pre ++ w :: post)) ev).terminated
      = ((run (mkState (pre ++ w :: post)) ev).initialized).reverse := by
  have habort :
      (initLoop (mkState (pre ++ w :: post)) (mkState (pre ++ w :: post)).workersAdded).2
        = true := by
    rw [initLoop_mkState _ hnd]
    exact initLoopRegs_snd_of_fail _ w (by simp) hfail
  have hrep := run_aborted (mkState (pre ++ w :: post)) ev habort
  refine ⟨?_, ?_, ?_, ?_⟩
  · intro n hn
    rw [run_initialized, initLoop_mkState _ hnd, initLoopRegs_fst] at hn
    obtain ⟨x, hx, hxn⟩ := List.mem_map.mp hn
    have hw : (fun r => (effInitReg r).isNone) w = false := by
      cases he : effInitReg w with
      | none => rw [he] at hfail; simp at hfail
      | some e => simp [he]
    have hxpre := mem_takeWhile_append _ pre post w hw x hx
    exact hxn ▸ List.mem_map_of_mem Reg.name hxpre
  · rw [hrep]
  · rw [hrep]
  · rw [hrep]
    exact deferStack_eq_reverse _

/-- Witness for C3_init_failure_aborts_startup: worker a succeeds, worker b
fails init, worker c comes after; nothing is launched. -/
theorem C3_witness :
    (((([(Reg.mk "a" wOk none)] : List Reg) ++ (Reg.mk "b" wInitFail none) :: [(Reg.mk "c" wOk none)]).map
        Reg.name).Nodup)
  ∧ (run (mkState (([(Reg.mk "a" wOk none)] : List Reg) ++ (Reg.mk "b" wInitFail none) ::
        [(Reg.mk "c" wOk none)])) .allDone).launched = [] :=
  ⟨by decide,
    (C3_init_failure_aborts_startup [(Reg.mk "a" wOk none)] [(Reg.mk "c" wOk none)]
      (Reg.mk "b" wInitFail none) .allDone (by decide) rfl).2.1⟩

/-- Claim C4: for duplicate-free registrations, the initialized set after
the initialization phase of Run is exactly the names of the registrations
whose init step (under its retry policy where attached) returned nil — the
prefix before the first failure, since the loop is fail-fast — in
registration order, each name at most once. -/
theorem C4_initialized_set (regs : List Reg) (ev : Terminal)
    (hnd : (regs.map Reg.name).Nodup) :
    (run (mkState regs) ev).initialized
        = (regs.takeWhile (fun r => (effInitReg r).isNone)).map Reg.name
  ∧ ((run (mkState regs) ev).initialized).Sublist (regs.map Reg.name)
  ∧ ((run (mkState regs) ev).initialized).Nodup := by
  have h0 := run_initialized (mkState regs) ev
  rw [initLoop_mkState _ hnd, initLoopRegs_fst] at h0
  refine ⟨h0, ?_, ?_⟩
  · rw [h0]
    exact (List.takeWhile_sublist _).map Reg.name
  · rw [h0]
    exact ((List.takeWhile_sublist _).map Reg.name).nodup hnd

/-- Witness for C4_initialized_set: a succeeds, b fails, c unreached; the
initialized set is exactly the name a. -/
theorem C4_witness :
    ((([(Reg.mk "a" wOk none), (Reg.mk "b" wInitFail none), (Reg.mk "c" wOk none)] : List Reg).map
        Reg.name).Nodup)
  ∧ (run (mkState [(Reg.mk "a" wOk none), (Reg.mk "b" wInitFail none), (Reg.mk "c" wOk none)]) .allDone).initialized
      = (([(Reg.mk "a" wOk none), (Reg.mk "b" wInitFail none), (Reg.mk "c" wOk none)] : List Reg).takeWhile
          (fun r => (effInitReg r).isNone)).map Reg.name :=
  ⟨by decide,
    (C4_initialized_set [(Reg.mk "a" wOk none), (Reg.mk "b" wInitFail none), (Reg.mk "c" wOk none)]
      .allDone (by decide)).1⟩

/-- Claim C5: on any supervisor state, once a registration under a name has
succeeded — through either AddWorker or AddWorkerWithInitRetry — a second
registration under the same name, through either entry point and with any
worker value, hits the duplicate check inside AddWorker and is fatal, before
the run phase is involved at all. -/
theorem C5_duplicate_name_fatal (s s₂ : SVCState) (r₁ r₂ : Reg)
    (hname : r₁.name = r₂.name)
    (h1 : applyReg s r₁ = .ok s₂) :
    applyReg s₂ r₂ = .fatalDup := by
  have key : (s₂.workers.lookup r₂.name).isSome = true := by
    have hw : s₂.workers = s.workers ++ [(r₁.name, r₁.worker)] ∧
        s.workers.lookup r₁.name = none := by
      cases hr1 : r₁.retry with
      | none =>
          simp only [applyReg, hr1, addWorker] at h1
          by_cases hs : (s.workers.lookup r₁.name).isSome
          · rw [if_pos hs] at h1
            cases h1
          · rw [if_neg hs] at h1
            injection h1 with h1
            exact ⟨h1 ▸ rfl, Option.not_isSome_iff_eq_none.mp hs⟩
      | some a =>
          simp only [applyReg, hr1, addWorkerWithInitRetry, addWorker] at h1
          by_cases hs : (s.workers.lookup r₁.name).isSome
          · rw [if_pos hs] at h1
            cases h1
          · rw [if_neg hs] at h1
            injection h1 with h1
            exact ⟨h1 ▸ rfl, Option.not_isSome_iff_eq_none.mp hs⟩
    rw [hw.1, ← hname, lookup_append, hw.2, Option.none_or, lookup_singleton, if_pos rfl]
    rfl
  cases hr2 : r₂.retry with
  | none => simp [applyReg, hr2, addWorker, key]
  | some a => simp [applyReg, hr2, addWorkerWithInitRetry, addWorker, key]

/-- Witness for C5_duplicate_name_fatal: name a registered through
AddWorker, then registered again through AddWorkerWithInitRetry. -/
theorem C5_witness :
    applyReg (appendRegs (new "n" "v" []) [(Reg.mk "a" wOk none)]) (Reg.mk "a" wBoom (some 3))
      = .fatalDup :=
  C5_duplicate_name_fatal (new "n" "v" []) (appendRegs (new "n" "v" []) [(Reg.mk "a" wOk none)])
    (Reg.mk "a" wOk none) (Reg.mk "a" wBoom (some 3)) rfl rfl

/-- Claim C6: the liveness query reports success exactly when its per-worker
error collection is empty; workers without the Aliver capability do not
affect the collection; the collection is empty exactly when every exposing
worker reports nil (hence also when zero workers expose the capability); and
every exposing worker that reports an error contributes an error naming that
worker. -/
theorem C6_liveness_query (ws : List (String × Worker)) :
    ((respond (liveHandler ws)).status = some 200 ↔ liveErrs ws = [])
  ∧ ((respond (liveHandler ws)).status = some 503 ↔ liveErrs ws ≠ [])
  ∧ (liveErrs ws = [] ↔ ∀ p ∈ ws, ∀ res, p.2.alive = some res → res = none)
  ∧ (∀ (n : String) (w : Worker), w.alive = none → liveErrs ((n, w) :: ws) = liveErrs ws)
  ∧ (∀ p ∈ ws, ∀ e, p.2.alive = some (some e) →
        GoErr.str ("worker " ++ p.1 ++ ": " ++ e.message) ∈ liveErrs ws) := by
  have hstat : (respond (liveHandler ws)).status
      = if liveErrs ws = [] then some 200 else some 503 := by
    by_cases h : liveErrs ws = []
    · simp [liveHandler, liveRespond, respond, RespWriter.write, RespWriter.writeHeader,
        RespWriter.setHeader, RespWriter.empty, h]
    · have hl : liveErrs ws ≠ [] := h
      have hlen : (liveErrs ws).length ≠ 0 := by
        simpa [List.length_eq_zero] using hl
      simp [liveHandler, liveRespond, respond, RespWriter.write, RespWriter.writeHeader,
        RespWriter.setHeader, RespWriter.empty, h, hlen]
  refine ⟨?_, ?_, ?_, ?_, ?_⟩
  · rw [hstat]
    by_cases h : liveErrs ws = [] <;> simp [h]
  · rw [hstat]
    by_cases h : liveErrs ws = [] <;> simp [h]
  · rw [liveErrs_eq_filterMap, List.filterMap_eq_nil_iff]
    constructor
    · intro h p hp res hres
      have hnone := h p hp
      cases res with
      | none => rfl
      | some e =>
          rw [liveEntry, hres] at hnone
          cases hnone
    · intro h p hp
      rw [liveEntry]
      cases ha : p.2.alive with
      | none => rfl
      | some res =>
          cases res with
          | none => rfl
          | some e => cases h p hp (some e) ha
  · intro n w hw
    simp [liveErrs, liveLoop, hw]
  · intro p hp e he
    rw [liveErrs_eq_filterMap, List.mem_filterMap]
    exact ⟨p, hp, by rw [liveEntry, he]⟩

/-- Witness for C6_liveness_query: the worker a exposes Aliver and reports
disk full; its error, naming the worker, is in the collection. -/
theorem C6_witness :
    wAliveErr.alive = some (some (GoErr.str "disk full"))
  ∧ GoErr.str ("worker " ++ "a" ++ ": " ++ (GoErr.str "disk full").message)
      ∈ liveErrs [("a", wAliveErr), ("b", wOk)] :=
  ⟨rfl,
    (C6_liveness_query [("a", wAliveErr), ("b", wOk)]).2.2.2.2 ("a", wAliveErr)
      (List.mem_cons_self _ _) (GoErr.str "disk full") rfl⟩

/-- Claim C7, counterexample: with zero workers the alive and healthy
capability results are identical (there are none), yet the two finalized
responses differ — the live handler sends the alive body with a content
type, the ready handler sends an empty body — even though the status codes
agree. -/
theorem C7_counterexample :
    respond (liveHandler []) ≠ respond (readyHandler [])
  ∧ (respond (liveHandler [])).status = (respond (readyHandler [])).status := by
  constructor
  · decide
  · rfl

/-- Claim C7 as amended: the readiness query computes the same per-worker
error collection as the liveness query reading the Healther capability in
place of the Aliver capability, and for the same error collection both
handlers answer the same status code, with the same body on failure; but
the full responses differ — the ready success response has an empty body
and no content type, and the ready failure response sets its content type
only after the status line is written. -/
theorem C7_readiness_mirrors_liveness (ws : List (String × Worker)) (errs : List GoErr) :
    readyErrs ws = liveErrs (ws.map (fun p => (p.1, aliveFromHealthy p.2)))
  ∧ (respond (liveRespond errs)).status = (respond (readyRespond errs)).status
  ∧ (errs ≠ [] → (liveRespond errs).body = (readyRespond errs).body) := by
  refine ⟨?_, ?_, ?_⟩
  · rw [readyErrs_eq_filterMap, liveErrs_eq_filterMap, List.filterMap_map]
    have hentries : (liveEntry ∘ fun p : String × Worker => (p.1, aliveFromHealthy p.2))
        = readyEntry := by
      funext p
      rfl
    rw [hentries]
  · cases errs with
    | nil => rfl
    | cons e t =>
        simp [liveRespond, readyRespond, respond, RespWriter.write,
          RespWriter.writeHeader, RespWriter.setHeader, RespWriter.empty]
  · intro h
    cases errs with
    | nil => cases h rfl
    | cons e t =>
        simp [liveRespond, readyRespond, respond, RespWriter.write,
          RespWriter.writeHeader, RespWriter.setHeader, RespWriter.empty]

/-- Witness for C7_readiness_mirrors_liveness at a non-empty error
collection: both failure bodies agree. -/
theorem C7_witness :
    ([GoErr.str "x"] : List GoErr) ≠ []
  ∧ (liveRespond [GoErr.str "x"]).body = (readyRespond [GoErr.str "x"]).body :=
  ⟨by decide, (C7_readiness_mirrors_liveness [] [GoErr.str "x"]).2.2 (by decide)⟩

/-- Claim C8: the return of terminateWorkers is the race of the termination
goroutine against the grace-period timer, so the blocking wait never exceeds
the grace period; when everything completes within the grace period the
supervisor waits the full completion time; and with grace period zero it
returns immediately, before any still-running Terminate call — whose own
finish time the timeout does not alter — has finished. -/
theorem C8_grace_period_bounds_wait (s : SVCState) (inited : List String) :
    terminateReturnTime s inited ≤ (s.terminationGracePeriod : ℕ∞)
  ∧ (terminateCompletionTime s inited ≤ (s.terminationGracePeriod : ℕ∞) →
      terminateReturnTime s inited = terminateCompletionTime s inited)
  ∧ (s.terminationGracePeriod = 0 →
      terminateReturnTime s inited = 0
    ∧ ∀ k, ∀ hk : k < (terminationDurations s inited).length,
        0 < (terminationDurations s inited).get ⟨k, hk⟩ →
        terminateReturnTime s inited < termFinishTime s inited k) := by
  refine ⟨min_le_right _ _, fun h => min_eq_left h, fun hg => ⟨?_, ?_⟩⟩
  · rw [terminateReturnTime, waitGroupTimeout, hg, Nat.cast_zero]
    exact min_eq_right (zero_le _)
  · intro k hk hd
    have hret : terminateReturnTime s inited = 0 := by
      rw [terminateReturnTime, waitGroupTimeout, hg, Nat.cast_zero]
      exact min_eq_right (zero_le _)
    rw [hret, termFinishTime]
    have hstep : (terminationDurations s inited).get ⟨k, hk⟩
        ≤ ((terminationDurations s inited).take (k + 1)).sum := by
      rw [List.sum_take_succ _ k hk]
      exact le_add_self
    calc (0 : ℕ∞) < (terminationDurations s inited).get ⟨k, hk⟩ := hd
      _ ≤ ((terminationDurations s inited).take (k + 1)).sum := hstep
      _ ≤ (s.terminationWaitPeriod : ℕ∞)
            + ((terminationDurations s inited).take (k + 1)).sum := le_add_self

/-- Witness for C8_grace_period_bounds_wait: grace period zero and the
worker slow whose Terminate never returns; the shutdown path returns at time
zero, strictly before that Terminate finishes. -/
theorem C8_witness :
    ({ mkState [(Reg.mk "slow" wHang none)] with
        terminationGracePeriod := 0 } : SVCState).terminationGracePeriod = 0
  ∧ terminateReturnTime
        { mkState [(Reg.mk "slow" wHang none)] with terminationGracePeriod := 0 } ["slow"]
      < termFinishTime
          { mkState [(Reg.mk "slow" wHang none)] with terminationGracePeriod := 0 } ["slow"] 0 :=
  ⟨rfl,
    ((C8_grace_period_bounds_wait
        { mkState [(Reg.mk "slow" wHang none)] with terminationGracePeriod := 0 }
        ["slow"]).2.2 rfl).2 0 (by decide) (by decide)⟩

/-- Claim C9: the supervisor a successful New returns has a nil logger
field whatever options are applied — no constructor path assigns it and in
particular none assigns the newLogger result — so the Logger accessor
returns nil, and the diagnostic log AddWorker emits for a worker lacking the
Healther capability dereferences that nil logger. -/
theorem C9_new_leaves_logger_nil (n v : String) (opts : List SvcOpt)
    (name : String) (w : Worker) (hw : w.healthy = none) :
    (new n v opts).logger = none
  ∧ (new n v opts).loggerFn = none
  ∧ (new n v opts).logger ≠ newLogger n
  ∧ LogOutcome.nilDeref ∈ addWorkerLogCalls (new n v opts) name w := by
  have h1 := new_logger n v opts
  refine ⟨h1, h1, ?_, ?_⟩
  · rw [h1]
    simp [newLogger]
  · rw [addWorkerLogCalls, new_workers]
    simp [hw, logCall, h1]

/-- Witness for C9_new_leaves_logger_nil: a New with the Healthz option and
a first AddWorker of a worker without the Healther capability. -/
theorem C9_witness :
    wOk.healthy = none
  ∧ LogOutcome.nilDeref ∈ addWorkerLogCalls (new "svc" "1.0" [.withHealthz]) "dummy" wOk :=
  ⟨rfl, (C9_new_leaves_logger_nil "svc" "1.0" [.withHealthz] "dummy" wOk rfl).2.2.2⟩

/-- Claim C10: the shutdown path runs the Terminate calls as the deferred
stack of one goroutine, one after another — the trace is a single sequence —
in reverse order of the initialized set, so the last initialized worker is
terminated first; and whenever Run does not exit the process its terminated
trace is the reverse of its initialized set. -/
theorem C10_termination_reverse_order (inited : List String) (s : SVCState)
    (ev : Terminal) (h : (run s ev).processExited = false) :
    deferStack inited = inited.reverse
  ∧ (deferStack inited).head? = inited.getLast?
  ∧ (run s ev).terminated = ((run s ev).initialized).reverse := by
  refine ⟨deferStack_eq_reverse inited, ?_, ?_⟩
  · rw [deferStack_eq_reverse]
    exact List.head?_reverse inited
  · rw [run_terminated_of_not_exited s ev h, deferStack_eq_reverse]

/-- Witness for C10_termination_reverse_order: two workers a then b; the
shutdown path terminates b first. -/
theorem C10_witness :
    (run (mkState [(Reg.mk "a" wOk none), (Reg.mk "b" wOk none)]) .allDone).processExited
      = false
  ∧ (run (mkState [(Reg.mk "a" wOk none), (Reg.mk "b" wOk none)]) .allDone).terminated
      = ((run (mkState [(Reg.mk "a" wOk none), (Reg.mk "b" wOk none)]) .allDone).initialized).reverse :=
  ⟨rfl,
    (C10_termination_reverse_order ["a", "b"]
      (mkState [(Reg.mk "a" wOk none), (Reg.mk "b" wOk none)]) .allDone rfl).2.2⟩

end Claims

end Svc
